import Mathlib

/-!
# Verification of the it8951-video e-paper driver

A shallow embedding of the it8951-video repository (Rust): the SCSI-over-USB
transport engine (`src/usb.rs`), the IT8951 command layer (`src/api.rs`), the
dither/pack stage and streaming pipeline (`src/main.rs`), the frame-set type
(`src/frames.rs`) and the two tools (`src/bin/convert.rs`, `src/bin/display.rs`).
Machine integers are modelled as `Nat` with explicit `% 2^w` where the Rust code
wraps, and the `f32` VCOM arithmetic is modelled over `Rat` (the two concrete
values involved are exactly representable and every intermediate `f32` rounding
at the claims' inputs is exact, see the comment at `as_u16_cast`).
-/

/-! ## Display modes (`src/api.rs`, `enum Mode` and its `Deserialize` impl) -/

/-- Display modes of the IT8951 controller (`src/api.rs` lines 71-119).
`UNKNOWN` is the placeholder for out-of-range mode numbers reported
by the controller. -/
inductive Mode where
  | INIT
  | DU
  | GC16
  | GL16
  | GLR16
  | GLD16
  | A2
  | DU4
  | UNKNOWN
  deriving DecidableEq, Repr

/-- `impl Deserialize for Mode` (`src/api.rs` lines 121-150): a total function
from the decoded `u32` to a `Mode`, with every value other than 0..7 mapped
to `UNKNOWN`. -/
def Mode.deserialize (num : Nat) : Mode :=
  if num = 0 then Mode.INIT
  else if num = 1 then Mode.DU
  else if num = 2 then Mode.GC16
  else if num = 3 then Mode.GL16
  else if num = 4 then Mode.GLR16
  else if num = 5 then Mode.GLD16
  else if num = 6 then Mode.A2
  else if num = 7 then Mode.DU4
  else Mode.UNKNOWN

/-! ## Global command tag counter (`src/usb.rs` line 36 and line 162)

`static TAG: AtomicU32 = AtomicU32::new(1);` and, once per Command Block
Wrapper, `let tag = TAG.fetch_add(1, Ordering::SeqCst);`.  `fetch_add` on
`AtomicU32` wraps at `2^32` and returns the pre-increment value, so the tag
carried by the n-th CBW ever issued (0-based, across all connections) is the
counter value after n wrapping increments starting from 1. -/

/-- Counter value after `n` wrapping `fetch_add(1)` steps, starting at 1;
this is also the tag carried by the `n`-th issued Command Block Wrapper. -/
def tagAt : Nat → Nat
  | 0 => 1
  | n + 1 => (tagAt n + 1) % 2 ^ 32

/-- Little-endian byte serialization of a `u32` (bincode `with_little_endian`,
used for the transport-level fields of the Command Block Wrapper). -/
def u32_le_bytes (n : Nat) : List Nat :=
  [n % 256, n / 2 ^ 8 % 256, n / 2 ^ 16 % 256, n / 2 ^ 24 % 256]

/-- Big-endian byte serialization of a `u32` (`u32::to_be_bytes`, used for the
address fields inside the 16-byte device command payloads). -/
def u32_be_bytes (n : Nat) : List Nat :=
  [n / 2 ^ 24 % 256, n / 2 ^ 16 % 256, n / 2 ^ 8 % 256, n % 256]

/-- `get_command_block_wrapper` (`src/usb.rs` lines 152-179): the 31-byte
little-endian serialization of the CBW with signature `USBC`, the given tag,
transfer length, direction flag (bit 7 set for device-to-host), LUN 0 and
command length 16, followed by the 16 opaque command bytes. -/
def get_command_block_wrapper (command_data : List Nat) (data_transfer_length : Nat)
    (dirIn : Bool) (tag : Nat) : List Nat :=
  [0x55, 0x53, 0x42, 0x43] ++ u32_le_bytes tag ++ u32_le_bytes data_transfer_length ++
    [if dirIn then 0x80 else 0x00, 0, 16] ++ command_data

/-! ## Command Block Wrapper / status handshake (`src/usb.rs`) -/

/-- The 13-byte Command Status Wrapper (`src/usb.rs` lines 27-34). -/
structure CommandStatusWrapper where
  signature : Nat
  tag : Nat
  data_residue : Nat
  status : Nat
  deriving DecidableEq, Repr

/-- Outcome the USB layer returns for one 13-byte bulk read attempt on the IN
endpoint: success with a decoded CSW, a stall (`rusb::Error::Pipe`), or any
other transport error (coded by a number). -/
inductive StatusOutcome where
  | ok (csw : CommandStatusWrapper)
  | pipe
  | errOther (code : Nat)
  deriving DecidableEq, Repr

/-- Observable USB actions of the transport engine, used to state that the
status-handshake loop re-reads without re-issuing the Command Wrapper. -/
inductive UsbAction where
  | readBulkIn (len : Nat)
  | clearHalt
  | writeBulkOut (len : Nat)
  deriving DecidableEq, Repr

/-- `send_status_block_wrapper` (`src/usb.rs` lines 125-149) run against a
trace of read outcomes: loop reading 13 bytes from the IN endpoint; on
`Error::Pipe` clear the halt on that endpoint and retry; on any other error
return it; on success decode and return the CSW.  The result is `none` when
the trace is exhausted while the loop is still retrying (the unbounded-retry
hang), and the action list records every bulk read / halt-clear performed. -/
def send_status_block_wrapper :
    List StatusOutcome → Option (Except Nat CommandStatusWrapper) × List UsbAction
  | [] => (none, [])
  | StatusOutcome.ok csw :: _ => (some (Except.ok csw), [UsbAction.readBulkIn 13])
  | StatusOutcome.pipe :: rest =>
    let r := send_status_block_wrapper rest
    (r.1, UsbAction.readBulkIn 13 :: UsbAction.clearHalt :: r.2)
  | StatusOutcome.errOther e :: _ => (some (Except.error e), [UsbAction.readBulkIn 13])

/-! ## Device command layer (`src/api.rs`) -/

/-- Rust `as u16` cast from an `f32`, modelled over `Rat`: truncate toward
zero and saturate to `[0, 65535]` (NaN cannot arise at the inputs modelled
here).  At the claims' inputs every `f32` intermediate is exact or rounds to
the same integer part: `|-1.58f32| * 1000f32` evaluates to exactly `1580.0f32`
(the nearest `f32` to 1.58 is 13254001/2^23, the product 1580.0000429… rounds
to 1580.0 whose integer part equals `(1580 : Rat).floor`). -/
def as_u16_cast (x : Rat) : Nat :=
  min (max ⌊x⌋ 0).toNat 65535

/-- `API::set_vcom` (`src/api.rs` lines 345-370): converts the VCOM volt value
into its absolute millivolt magnitude as a `u16`, and builds the 16-byte PMIC
command with the magnitude big-endian in bytes 7-8 and the commit flag byte
(`Do Set VCom? 1 - yes`) at byte 9.  The function performs no range check on
`vcom`; it always produces (and sends) this command. -/
def set_vcom_command (vcom : Rat) : List Nat :=
  let converted := as_u16_cast (|vcom| * 1000)
  [0xfe, 0x00, 0x00, 0x00, 0x00, 0x00, 0xa3,
   converted / 256, converted % 256, 0x01,
   0x00, 0x00, 0x00, 0x00, 0x00, 0x00]

/-- The VCOM range assertion of the batch display tool
(`src/bin/display.rs` line 97): `assert!(opt.vcom > -5.0 && opt.vcom < 0.0)`,
checked before its `set_vcom` call. -/
def display_tool_vcom_check (v : Rat) : Bool :=
  decide (v > -5) && decide (v < 0)

/-- The VCOM range assertion of the streaming tool (`src/main.rs` line 108):
`assert!(opt.vcom < 0.0 && opt.vcom >= -5.0)`. -/
def streaming_tool_vcom_check (v : Rat) : Bool :=
  decide (v < 0) && decide (v ≥ -5)

/-- `API::set_memory` (`src/api.rs` lines 373-397): the 16-byte fast-write
command for a payload of `dataLen` bytes at `address`.  The payload length is
cast with `as u16` (`usize` to `u16` truncates, i.e. is taken modulo `2^16`)
and stored big-endian in command bytes 7-8; the address is stored big-endian
in bytes 2-5. -/
def set_memory_command (address : Nat) (dataLen : Nat) : List Nat :=
  let address_8 := u32_be_bytes address
  let len16 := dataLen % 2 ^ 16
  [0xfe, 0x00, address_8.getD 0 0, address_8.getD 1 0, address_8.getD 2 0, address_8.getD 3 0,
   0xa5, len16 / 256, len16 % 256,
   0x00, 0x00, 0x00, 0x00, 0x00, 0x00, 0x00]

/-- The per-frame byte size computed by both tools
(`src/main.rs` line 119, `src/bin/display.rs` line 68):
`image_size = (width * height) / 8`.  This is also the length of every packed
frame the streaming pipeline passes to `set_memory` in its single per-frame
call (`src/main.rs` lines 216 and 290). -/
def pipeline_frame_bytes (w h : Nat) : Nat :=
  w * h / 8

/-! ## Dither/pack stage (`src/main.rs` lines 55-102 and 214-228) -/

/-- `ThresholdMatrix` (`src/main.rs` lines 56-60): a `nx × ny` lookup table of
byte thresholds. -/
structure ThresholdMatrix where
  nx : Nat
  ny : Nat
  matrix : List Nat

/-- `ThresholdMatrix::look_up` (`src/main.rs` lines 93-101):
`matrix[(y % ny) * nx + (x % nx)]`. -/
def ThresholdMatrix.look_up (tm : ThresholdMatrix) (x y : Nat) : Nat :=
  tm.matrix.getD ((y % tm.ny) * tm.nx + (x % tm.nx)) 0

/-- One iteration of the dither/pack double loop (`src/main.rs` lines 217-228)
at flattened pixel index `idx = y * width + x` (the loop runs `y` outer, `x`
inner, so `idx` ranges over `0..width*height` in order, with `x = idx % w` and
`y = idx / w`): if the 8bpp sample exceeds the threshold, OR bit
`2 ^ (idx % 8)` into output byte `idx / 8`. -/
def ditherStep (data_8bpp : Nat → Nat) (tm : ThresholdMatrix) (w : Nat)
    (acc : List Nat) (idx : Nat) : List Nat :=
  if data_8bpp idx > tm.look_up (idx % w) (idx / w) then
    acc.set (idx / 8) (acc.getD (idx / 8) 0 ||| 2 ^ (idx % 8))
  else acc

/-- The dither/pack stage (`src/main.rs` lines 214-228): start from
`vec![0u8; width * height / 8]` and run the double loop over all pixels. -/
def dither_and_pack (w h : Nat) (data_8bpp : Nat → Nat) (tm : ThresholdMatrix) : List Nat :=
  (List.range (w * h)).foldl (ditherStep data_8bpp tm w) (List.replicate (w * h / 8) 0)

/-- The dither/pack output buffer after the first `n` pixels of the double
loop; `dither_and_pack w h data tm = ditherState w h data tm (w * h)` by
definition. -/
def ditherState (w h : Nat) (data_8bpp : Nat → Nat) (tm : ThresholdMatrix) (n : Nat) : List Nat :=
  (List.range n).foldl (ditherStep data_8bpp tm w) (List.replicate (w * h / 8) 0)

/-! ## Streaming pipeline schedule (`src/main.rs` lines 196-308)

The producer thread counts decoded frames with `frame_counter` (from 0) and
sends a frame into the unbounded FIFO channel iff `frame_counter % take == 0`;
the consumer thread pops frames in FIFO order, counts displayed frames with
its own `frame_counter` (from 0) and displays with mode `GL16` when
`frame_counter % ghost == 0`, else `A2`. -/

/-- Producer subsampling loop (`src/main.rs` lines 202-233), with the running
`frame_counter` made explicit: keep a frame iff the counter is a multiple of
`take`. -/
def producerLoop {α : Type} (take : Nat) : Nat → List α → List α
  | _, [] => []
  | counter, f :: rest =>
    if counter % take = 0 then f :: producerLoop take (counter + 1) rest
    else producerLoop take (counter + 1) rest

/-- Frames kept by the producer, in source order (`frame_counter` starts at 0). -/
def producerKept {α : Type} (take : Nat) (frames : List α) : List α :=
  producerLoop take 0 frames

/-- Consumer display loop (`src/main.rs` lines 281-301), with the running
`frame_counter` made explicit: the frame displayed at counter value `c` uses
`GL16` iff `c % ghost == 0`, else `A2`. -/
def consumerLoop {α : Type} (ghost : Nat) : Nat → List α → List (α × Mode)
  | _, [] => []
  | c, f :: rest =>
    (f, if c % ghost = 0 then Mode.GL16 else Mode.A2) :: consumerLoop ghost (c + 1) rest

/-- The (frame, mode) pairs the consumer displays, in queue order
(`frame_counter` starts at 0). -/
def consumerModes {α : Type} (ghost : Nat) (frames : List α) : List (α × Mode) :=
  consumerLoop ghost 0 frames

/-- The full pipeline schedule: the FIFO channel delivers the producer's kept
frames to the consumer in production order. -/
def pipelineDisplayed {α : Type} (take ghost : Nat) (frames : List α) : List (α × Mode) :=
  consumerModes ghost (producerKept take frames)

/-! ## Frame sets (`src/frames.rs`) and the conversion tool (`src/bin/convert.rs`) -/

/-- `RawFrames` (`src/frames.rs` lines 7-34): target width, height and the
ordered frames.  The constructor `RawFrames::new` performs no validation. -/
structure RawFrames where
  width : Nat
  height : Nat
  frames : List (List Nat)
  deriving DecidableEq, Repr

/-- Row-major pixel stream split into chunks of (at most) 8 pixels
(`itertools::chunks(8)` over `enumerate_pixels` in `src/bin/convert.rs`
lines 98-112). -/
def chunks8 (l : List Nat) : List (List Nat) :=
  if h : l = [] then []
  else l.take 8 :: chunks8 (l.drop 8)
termination_by l.length
decreasing_by
  simp only [List.length_drop]
  have hpos : 0 < l.length := List.length_pos.mpr h
  omega

/-- One packed output byte of the conversion tool (`src/bin/convert.rs`
lines 103-109): for each pixel of the chunk, OR in `2 ^ index` iff its
(bilevel-dithered) luma is 255. -/
def pack_byte (chunk : List Nat) : Nat :=
  chunk.enum.foldl (fun byte p => if p.2 = 255 then byte ||| 2 ^ p.1 else byte) 0

/-- Per-frame packing of the conversion tool (`src/bin/convert.rs`
lines 97-112): one byte per chunk of 8 pixels. -/
def convert_frame (pixels : List Nat) : List Nat :=
  (chunks8 pixels).map pack_byte

/-- The playback precondition checks of the batch display tool
(`src/bin/display.rs` lines 88-94):
`assert_eq!(frames.width(), opt.width)`, `assert_eq!(frames.height(), opt.height)`
and `assert_eq!(frames.get(0).expect(..).len(), image_size)`.  Only the FIRST
frame's length is compared against `image_size = width*height/8`.  `none`
models the `.expect` panic on an empty frame set; `some b` is the conjunction
of the three assertions. -/
def playback_check (rf : RawFrames) (optW optH : Nat) : Option Bool :=
  match rf.frames with
  | [] => none
  | f0 :: _ =>
    some (decide (rf.width = optW) && decide (rf.height = optH) &&
          decide (f0.length = optW * optH / 8))

/-! ## Batch display tool main loop (`src/bin/display.rs` lines 116-166)

`BUFFER_SIZE = 8`: frames are written into 8 consecutive image-buffer slots
and displayed in complete batches of 8 only. -/

/-- Observable device events of the batch display tool run. -/
inductive DispEvent where
  | setMemory (addr : Nat) (frame : List Nat)
  | displayImage (addr : Nat) (mode : Mode)
  | writeReg (addr val : Nat)
  | clearDisplay
  deriving DecidableEq, Repr

/-- `ghost_counter` update after one displayed image
(`src/bin/display.rs` lines 155-158): increment, reset to 0 once it
exceeds `ghost`. -/
def ghostStep (ghost gc : Nat) : Nat :=
  if gc + 1 > ghost then 0 else gc + 1

/-- The inner `for index in 0..BUFFER_SIZE` display loop
(`src/bin/display.rs` lines 146-159), by remaining iteration count:
display slot `index` with `GL16` iff `ghost_counter == 0`, else `A2`,
then step the ghost counter.  Returns the events and the final counter. -/
def batchLoop (base size ghost : Nat) : Nat → Nat → Nat → List DispEvent × Nat
  | 0, _, gc => ([], gc)
  | n + 1, index, gc =>
    let e := DispEvent.displayImage (base + size * index)
      (if gc = 0 then Mode.GL16 else Mode.A2)
    let r := batchLoop base size ghost n (index + 1) (ghostStep ghost gc)
    (e :: r.1, r.2)

/-- One complete batch display (`for index in 0..8`). -/
def batchEvents (base size ghost : Nat) (gc : Nat) : List DispEvent × Nat :=
  batchLoop base size ghost 8 0 gc

/-- The outer `for (frames_count, frame) in frames.iter().enumerate()` loop
(`src/bin/display.rs` lines 120-160), with the enumeration counter `fc`, the
`ghost_counter` `gc` and the `buffer_index` `bi` explicit: skip frames whose
index is not a multiple of `take`; write a kept frame to slot `bi`; once slot
7 was written (`buffer_index < BUFFER_SIZE - 1` fails), display the whole
batch and reset `bi` to 0. -/
def displayLoop (take base size ghost : Nat) :
    List (List Nat) → Nat → Nat → Nat → List DispEvent
  | [], _, _, _ => []
  | frame :: rest, fc, gc, bi =>
    if fc % take ≠ 0 then displayLoop take base size ghost rest (fc + 1) gc bi
    else
      let e := DispEvent.setMemory (base + size * bi) frame
      if bi < 7 then e :: displayLoop take base size ghost rest (fc + 1) gc (bi + 1)
      else
        let b := batchEvents base size ghost gc
        e :: (b.1 ++ displayLoop take base size ghost rest (fc + 1) b.2 0)

/-- The full event trace of a (non-cancelled) batch display tool run
(`src/bin/display.rs` lines 116-168): the main loop, then the restore of the
saved register value `reg` to `0x1800_1138`, then `clear_display`. -/
def displayRun (take base size ghost reg : Nat) (frames : List (List Nat)) : List DispEvent :=
  displayLoop take base size ghost frames 0 0 0 ++
    [DispEvent.writeReg 0x18001138 reg, DispEvent.clearDisplay]

/-- Event classifier: is this a `set_memory` (image-buffer write) event? -/
def isSetMemory : DispEvent → Bool
  | DispEvent.setMemory _ _ => true
  | _ => false

/-- Event classifier: is this a `display_image` event? -/
def isDisplayImage : DispEvent → Bool
  | DispEvent.displayImage _ _ => true
  | _ => false

/-! ## Display-setup register sessions (C8)

Both tools mutate three controller registers at connect time:
`0x1800_1138` (bit-depth / pitch mode, after saving the old value `reg`),
`0x1800_1250` (color mapping, set to `0xf0 | 0x00 << 8`) and
`0x1800_124c` (pitch width, set to `width / 8 / 4`).
The batch tool (`src/bin/display.rs` line 163) writes the saved `reg` back to
`0x1800_1138` before clearing the display and exiting — on the cancellation
path as well, since the Ctrl-C handler only breaks the frame loop.  It never
rewrites `0x1800_1250` or `0x1800_124c`.  The streaming tool (`src/main.rs`)
saves `reg` (line 146) but has no restore write anywhere. -/

/-- Register file after the connect-time setup writes shared by both tools
(`src/bin/display.rs` lines 100-113, `src/main.rs` lines 145-158), as a
function from register address to value. -/
def setup_regs (regs0 : Nat → Nat) (w : Nat) : Nat → Nat := fun a =>
  if a = 0x1800124c then w / 8 / 4
  else if a = 0x18001250 then 0xf0 ||| 0x00 <<< 8
  else if a = 0x18001138 then regs0 0x18001138 ||| 1 <<< 18 ||| 1 <<< 17
  else regs0 a

/-- Register file at the end of a batch display tool session: the setup
writes, then the single teardown write restoring the saved value of
`0x1800_1138` (`src/bin/display.rs` line 163). -/
def display_tool_final_regs (regs0 : Nat → Nat) (w : Nat) : Nat → Nat := fun a =>
  if a = 0x18001138 then regs0 0x18001138
  else setup_regs regs0 w a

/-- Register file at the end of a streaming tool session: the setup writes and
no teardown write (`src/main.rs` performs no register write after line 158). -/
def streaming_tool_final_regs (regs0 : Nat → Nat) (w : Nat) : Nat → Nat :=
  setup_regs regs0 w

/-! # Theorems -/

/-! ## Helper lemmas -/

/-- Closed form for the tag sequence. -/
theorem tagAt_eq (n : Nat) : tagAt n = (1 + n) % 2 ^ 32 := by
  induction n with
  | zero => rfl
  | succ n ih =>
    show (tagAt n + 1) % 2 ^ 32 = (1 + (n + 1)) % 2 ^ 32
    rw [ih, Nat.mod_add_mod, Nat.add_assoc]

/-- Running the status handshake against `k` leading stalls: every stall costs
one 13-byte read and one halt-clear, then the loop continues on the rest of
the trace. -/
theorem send_status_pipes (k : Nat) (tail : List StatusOutcome) :
    send_status_block_wrapper (List.replicate k StatusOutcome.pipe ++ tail)
      = ((send_status_block_wrapper tail).1,
         (List.replicate k [UsbAction.readBulkIn 13, UsbAction.clearHalt]).flatten
           ++ (send_status_block_wrapper tail).2) := by
  induction k with
  | zero => simp
  | succ k ih =>
    rw [List.replicate_succ, List.cons_append]
    simp only [send_status_block_wrapper]
    rw [ih]
    rw [List.replicate_succ, List.flatten_cons]
    simp

/-! ## Claim C9 -/

/-- C9: deserializing a display `Mode` from a `u32` is total and never fails:
values 0-7 map respectively to INIT, DU, GC16, GL16, GLR16, GLD16, A2, DU4,
and every other value maps to UNKNOWN (`Mode.deserialize` is a total function,
so decoding a System Info structure cannot fail because of an out-of-range
mode field). -/
theorem claim9_mode_deserialize_total :
    (Mode.deserialize 0 = Mode.INIT ∧ Mode.deserialize 1 = Mode.DU ∧
     Mode.deserialize 2 = Mode.GC16 ∧ Mode.deserialize 3 = Mode.GL16 ∧
     Mode.deserialize 4 = Mode.GLR16 ∧ Mode.deserialize 5 = Mode.GLD16 ∧
     Mode.deserialize 6 = Mode.A2 ∧ Mode.deserialize 7 = Mode.DU4) ∧
    ∀ n : Nat, 8 ≤ n → Mode.deserialize n = Mode.UNKNOWN := by
  refine ⟨by decide, ?_⟩
  intro n hn
  simp only [Mode.deserialize]
  split_ifs <;> first | rfl | omega

/-- C9 witness: the out-of-range mode number 154 mentioned in the source
comment decodes to `UNKNOWN`. -/
theorem claim9_witness : Mode.deserialize 154 = Mode.UNKNOWN :=
  claim9_mode_deserialize_total.2 154 (by decide)

/-! ## Claim C4 -/

/-- C4 counterexample: the claim "every issued tag is nonzero" fails on the
code: the tag counter starts at 1 and wraps at `2^32`, so the command issued
at 0-based index `2^32 - 1` carries tag 0. -/
theorem claim4_counterexample : tagAt (2 ^ 32 - 1) = 0 := by
  rw [tagAt_eq]
  norm_num

/-- C4 (amended): the global tag counter starts at 1 and every Command
Wrapper carries one atomic wrapping fetch-and-increment result, so tags
follow the successor-mod-`2^32` sequence, no tag repeats within any window of
fewer than `2^32` consecutive issuances, and every tag before the first
wraparound (issuance index `< 2^32 - 1`) is nonzero; the tag 0 is issued
exactly at indices `≡ 2^32 - 1 (mod 2^32)`. -/
theorem claim4_tag_amended :
    tagAt 0 = 1 ∧
    (∀ n, tagAt (n + 1) = (tagAt n + 1) % 2 ^ 32) ∧
    (∀ m n, m < n → n - m < 2 ^ 32 → tagAt m ≠ tagAt n) ∧
    (∀ n, n < 2 ^ 32 - 1 → tagAt n ≠ 0) := by
  refine ⟨rfl, fun n => rfl, ?_, ?_⟩
  · intro m n hmn hwin heq
    rw [tagAt_eq, tagAt_eq] at heq
    have hmod : (1 + m) ≡ (1 + n) [MOD 2 ^ 32] := heq
    have hdvd := (Nat.modEq_iff_dvd' (by omega)).mp hmod
    have hsub : (1 + n) - (1 + m) = n - m := by omega
    rw [hsub] at hdvd
    have := Nat.le_of_dvd (by omega) hdvd
    omega
  · intro n hn hzero
    rw [tagAt_eq, Nat.mod_eq_of_lt (by omega)] at hzero
    omega

/-- C4 witness: concrete instances of the amended tag properties. -/
theorem claim4_witness : tagAt 0 = 1 ∧ tagAt 3 ≠ tagAt 7 ∧ tagAt 5 ≠ 0 :=
  ⟨claim4_tag_amended.1,
   claim4_tag_amended.2.2.1 3 7 (by norm_num) (by norm_num),
   claim4_tag_amended.2.2.2 5 (by norm_num)⟩

/-! ## Claim C3 -/

/-- C3: during the 13-byte status handshake, each stall (pipe error) on the IN
endpoint triggers exactly one halt-clear followed by a retry of the same
13-byte read, with no Command Wrapper write anywhere in the handshake;
retries on stall are unbounded (the property holds for every stall count
`k`), and any other transport error is propagated immediately with no
halt-clear or retry for it. -/
theorem claim3_stall_recovery (k : Nat) (csw : CommandStatusWrapper) (e : Nat)
    (rest rest' : List StatusOutcome) :
    send_status_block_wrapper
        (List.replicate k StatusOutcome.pipe ++ StatusOutcome.ok csw :: rest)
      = (some (Except.ok csw),
         (List.replicate k [UsbAction.readBulkIn 13, UsbAction.clearHalt]).flatten
           ++ [UsbAction.readBulkIn 13]) ∧
    send_status_block_wrapper
        (List.replicate k StatusOutcome.pipe ++ StatusOutcome.errOther e :: rest')
      = (some (Except.error e),
         (List.replicate k [UsbAction.readBulkIn 13, UsbAction.clearHalt]).flatten
           ++ [UsbAction.readBulkIn 13]) ∧
    ∀ len,
      UsbAction.writeBulkOut len ∉
        (List.replicate k [UsbAction.readBulkIn 13, UsbAction.clearHalt]).flatten
          ++ [UsbAction.readBulkIn 13] := by
  refine ⟨?_, ?_, ?_⟩
  · rw [send_status_pipes]
    simp [send_status_block_wrapper]
  · rw [send_status_pipes]
    simp [send_status_block_wrapper]
  · intro len hmem
    simp only [List.mem_append, List.mem_flatten, List.mem_replicate] at hmem
    rcases hmem with ⟨l, ⟨-, hl⟩, hx⟩ | hx <;> simp_all

/-! ## Claim C5 -/

/-- C5 counterexample: `set_vcom` performs no precondition check at all — for
`vcom = 0.0` (outside the claimed range) it does not fail but builds and
sends the PMIC command with magnitude 0 and the commit flag byte set,
i.e. device I/O happens. -/
theorem claim5_counterexample :
    set_vcom_command 0 = [0xfe, 0, 0, 0, 0, 0, 0xa3, 0, 0, 0x01, 0, 0, 0, 0, 0, 0] := by
  show ([0xfe, 0x00, 0x00, 0x00, 0x00, 0x00, 0xa3,
    as_u16_cast (|(0:Rat)| * 1000) / 256, as_u16_cast (|(0:Rat)| * 1000) % 256, 0x01,
    0x00, 0x00, 0x00, 0x00, 0x00, 0x00] : List Nat) = _
  norm_num [as_u16_cast]

/-- C5 (amended): `set_vcom` itself validates nothing and issues the 16-byte
PMIC command for every input, encoding `min(⌊|v|·1000⌋, 65535)` big-endian in
bytes 7-8 with the commit flag byte 9 set to 1; for `v = -1.58` the magnitude
is 1580 = (0x06, 0x2C).  The strict range check `(-5.0, 0.0)` exists only in
the batch display tool caller, which rejects 0.0, -5.0 and 1.0 before calling
`set_vcom`; the streaming tool's check is non-strict at the lower bound and
accepts -5.0. -/
theorem claim5_vcom_amended :
    set_vcom_command (-158/100)
      = [0xfe, 0, 0, 0, 0, 0, 0xa3, 0x06, 0x2c, 0x01, 0, 0, 0, 0, 0, 0] ∧
    (∀ v : Rat, (set_vcom_command v).length = 16 ∧ (set_vcom_command v).getD 9 0 = 1) ∧
    display_tool_vcom_check 0 = false ∧
    display_tool_vcom_check (-5) = false ∧
    display_tool_vcom_check 1 = false ∧
    display_tool_vcom_check (-158/100) = true ∧
    streaming_tool_vcom_check (-5) = true := by
  refine ⟨?_, fun v => ⟨rfl, rfl⟩, ?_, ?_, ?_, ?_, ?_⟩
  · show ([0xfe, 0x00, 0x00, 0x00, 0x00, 0x00, 0xa3,
      as_u16_cast (|(-158/100:Rat)| * 1000) / 256,
      as_u16_cast (|(-158/100:Rat)| * 1000) % 256, 0x01,
      0x00, 0x00, 0x00, 0x00, 0x00, 0x00] : List Nat) = _
    have h : |(-158/100:Rat)| * 1000 = 1580 := by
      rw [abs_of_nonpos (by norm_num)]
      norm_num
    rw [h]
    norm_num [as_u16_cast]
    exact ⟨rfl, rfl⟩
  · simp [display_tool_vcom_check]
  · simp [display_tool_vcom_check]
  · norm_num [display_tool_vcom_check]
  · norm_num [display_tool_vcom_check]
  · norm_num [streaming_tool_vcom_check]

/-! ## Claim C6 -/

/-- C6 counterexample: at the default dimensions 1856×1392 the packed frame
the streaming pipeline passes to `set_memory` is 322944 bytes (the spec's own
figure of 322752 bytes is itself a slip of arithmetic), far above the
65535-byte capacity of the 16-bit length field; the header then encodes
`322944 mod 2^16 = 60800`, not the payload length. -/
theorem claim6_counterexample :
    pipeline_frame_bytes 1856 1392 = 322944 ∧
    ¬ pipeline_frame_bytes 1856 1392 ≤ 65535 ∧
    (set_memory_command 0 322944).getD 7 0 * 256 + (set_memory_command 0 322944).getD 8 0
      = 60800 ∧
    (60800 : Nat) ≠ 322944 := by
  refine ⟨by decide, by norm_num [pipeline_frame_bytes], ?_, by norm_num⟩
  norm_num [set_memory_command]

/-- C6 (amended): `set_memory` encodes the payload length modulo `2^16`
big-endian in command bytes 7-8, so the field is faithful exactly for
payloads of at most 65535 bytes; the streaming pipeline's one call per packed
frame passes `width*height/8` bytes, which fits the field only when
`width*height ≤ 524287` and in particular not at the default 1856×1392
(322944-byte frames, encoded as 60800). -/
theorem claim6_set_memory_amended :
    (∀ addr len, (set_memory_command addr len).getD 7 0 = len % 2 ^ 16 / 256 ∧
                 (set_memory_command addr len).getD 8 0 = len % 2 ^ 16 % 256) ∧
    (∀ addr len, len ≤ 65535 →
       (set_memory_command addr len).getD 7 0 * 256
         + (set_memory_command addr len).getD 8 0 = len) ∧
    (∀ w h, pipeline_frame_bytes w h ≤ 65535 ↔ w * h ≤ 524287) ∧
    pipeline_frame_bytes 1856 1392 = 322944 := by
  refine ⟨fun addr len => ⟨rfl, rfl⟩, ?_, ?_, by decide⟩
  · intro addr len hlen
    show len % 2 ^ 16 / 256 * 256 + len % 2 ^ 16 % 256 = len
    omega
  · intro w h
    simp only [pipeline_frame_bytes]
    omega

/-- C6 witness: a 100-byte payload is encoded faithfully. -/
theorem claim6_witness :
    (set_memory_command 0 100).getD 7 0 * 256 + (set_memory_command 0 100).getD 8 0 = 100 :=
  claim6_set_memory_amended.2.1 0 100 (by norm_num)

/-! ## Claim C8 -/

/-- C8 counterexample: with all registers initially 0 and width 1856, the
batch display tool session ends with the color-mapping register `0x18001250`
still holding the mutated value `0xf0 ≠ 0`, and the streaming tool session
ends with even the bit-depth register `0x18001138` still holding the mutated
value `393216 ≠ 0` — the claimed restore-before-session-end fails. -/
theorem claim8_counterexample :
    display_tool_final_regs (fun _ => 0) 1856 0x18001250 = 0xf0 ∧
    (0xf0 : Nat) ≠ 0 ∧
    streaming_tool_final_regs (fun _ => 0) 1856 0x18001138 = 393216 ∧
    (393216 : Nat) ≠ 0 := by
  refine ⟨?_, by norm_num, ?_, by norm_num⟩ <;> decide

/-- C8 (amended): of the three display-setup registers mutated at connect
time, only the bit-depth/pitch-mode register `0x18001138` is ever restored,
and only by the batch display tool (on both its normal and its cancelled
exit); the color-mapping register `0x18001250` and the pitch-width register
`0x1800124c` end every session holding the mutated values `0xf0` and
`width/8/4`, and the streaming tool restores none of the three. -/
theorem claim8_regs_amended : ∀ (regs0 : Nat → Nat) (w : Nat),
    display_tool_final_regs regs0 w 0x18001138 = regs0 0x18001138 ∧
    display_tool_final_regs regs0 w 0x18001250 = 0xf0 ∧
    display_tool_final_regs regs0 w 0x1800124c = w / 8 / 4 ∧
    streaming_tool_final_regs regs0 w 0x18001138
      = (regs0 0x18001138 ||| 1 <<< 18 ||| 1 <<< 17) ∧
    streaming_tool_final_regs regs0 w 0x18001250 = 0xf0 ∧
    streaming_tool_final_regs regs0 w 0x1800124c = w / 8 / 4 := by
  intro regs0 w
  refine ⟨rfl, ?_, ?_, ?_, ?_, ?_⟩ <;>
    simp [display_tool_final_regs, streaming_tool_final_regs, setup_regs]

/-! ## Claim C1 -/

/-- The dither fold never changes the length of the output buffer. -/
theorem ditherFold_length (data : Nat → Nat) (tm : ThresholdMatrix) (w : Nat) :
    ∀ (idxs : List Nat) (l : List Nat), (idxs.foldl (ditherStep data tm w) l).length = l.length := by
  intro idxs
  induction idxs with
  | nil => intro l; rfl
  | cons i rest ih =>
    intro l
    show (rest.foldl _ (ditherStep data tm w l i)).length = _
    rw [ih]
    unfold ditherStep
    split
    · exact List.length_set l _ _
    · rfl

/-- Dropping the just-reached bound from a conjunction under `decide`, when
the boundary case is impossible. -/
theorem decide_lt_succ_and (m n : Nat) (P : Prop) [Decidable P] (h : m = n → ¬P) :
    decide (m < n + 1 ∧ P) = decide (m < n ∧ P) := by
  apply decide_eq_decide.mpr
  constructor
  · rintro ⟨h1, h2⟩
    rcases Nat.lt_succ_iff_lt_or_eq.mp h1 with h1' | h1'
    · exact ⟨h1', h2⟩
    · exact absurd h2 (h h1')
  · rintro ⟨h1, h2⟩
    exact ⟨by omega, h2⟩

/-- Bit-level invariant of the dither/pack loop: after processing the first
`n` pixels, bit `b` of output byte `k` is set iff pixel `8*k + b` was already
processed and its sample strictly exceeds the threshold looked up at its
coordinates. -/
theorem ditherState_testBit (w h : Nat) (data : Nat → Nat) (tm : ThresholdMatrix)
    (hdiv : 8 ∣ w * h) :
    ∀ n, n ≤ w * h → ∀ k, k < w * h / 8 → ∀ b, b < 8 →
      ((ditherState w h data tm n).getD k 0).testBit b
        = decide (8 * k + b < n ∧
            data (8 * k + b) > tm.look_up ((8 * k + b) % w) ((8 * k + b) / w)) := by
  intro n
  induction n with
  | zero =>
    intro _ k _ b _
    have h0 : (List.replicate (w * h / 8) (0 : Nat)).getD k 0 = 0 := by
      simp only [List.getD_eq_getElem?_getD, List.getElem?_replicate]
      split <;> rfl
    show ((List.replicate (w * h / 8) (0 : Nat)).getD k 0).testBit b = _
    rw [h0, Nat.zero_testBit]
    simp
  | succ n ih =>
    intro hn k hk b hb
    have hn' : n ≤ w * h := Nat.le_of_succ_le hn
    have hstate : ditherState w h data tm (n + 1)
        = ditherStep data tm w (ditherState w h data tm n) n := by
      unfold ditherState
      rw [List.range_succ, List.foldl_append]
      rfl
    have hlen : (ditherState w h data tm n).length = w * h / 8 := by
      unfold ditherState
      rw [ditherFold_length]
      exact List.length_replicate _ _
    rw [hstate]
    unfold ditherStep
    by_cases hcond : data n > tm.look_up (n % w) (n / w)
    · rw [if_pos hcond]
      have hk8 : n / 8 < w * h / 8 := Nat.div_lt_div_of_lt_of_dvd hdiv hn
      have hnb : 8 * (n / 8) + n % 8 = n := Nat.div_add_mod n 8
      by_cases hkk : k = n / 8
      · subst hkk
        have hset : ((ditherState w h data tm n).set (n / 8)
              ((ditherState w h data tm n).getD (n / 8) 0 ||| 2 ^ (n % 8))).getD (n / 8) 0
            = (ditherState w h data tm n).getD (n / 8) 0 ||| 2 ^ (n % 8) := by
          rw [List.getD_eq_getElem?_getD, List.getElem?_set_self (by rw [hlen]; exact hk8)]
          rfl
        rw [hset, Nat.testBit_or, ih hn' _ hk _ hb, Nat.testBit_two_pow]
        by_cases hbb : b = n % 8
        · subst hbb
          rw [hnb]
          simp [hcond]
        · rw [decide_eq_false (show ¬(n % 8 = b) from fun hEq => hbb hEq.symm),
            Bool.or_false]
          exact (decide_lt_succ_and _ _ _ (fun hEq => by omega)).symm
      · have hset : ((ditherState w h data tm n).set (n / 8)
              ((ditherState w h data tm n).getD (n / 8) 0 ||| 2 ^ (n % 8))).getD k 0
            = (ditherState w h data tm n).getD k 0 := by
          rw [List.getD_eq_getElem?_getD, List.getElem?_set_ne (fun hEq => hkk hEq.symm),
            ← List.getD_eq_getElem?_getD]
        rw [hset, ih hn' _ hk _ hb]
        have hkb : (8 * k + b) / 8 = k := by omega
        have hneq : 8 * k + b ≠ n := fun hEq => hkk (by rw [← hEq, hkb])
        exact (decide_lt_succ_and _ _ _ (fun hEq => absurd hEq hneq)).symm
    · rw [if_neg hcond]
      rw [ih hn' _ hk _ hb]
      refine (decide_lt_succ_and _ _ _ ?_).symm
      intro hEq hP
      exact hcond (hEq ▸ hP)

/-- C1: for every `width × height` grayscale frame with `width*height`
divisible by 8 and samples in `0..=255`, the dither/pack stage produces
exactly `width*height/8` packed bytes, and (bits being packed 8 per byte,
least-significant-bit first, in row-major order) the output bit for the pixel
at `(x, y)` — bit `(y*w+x) % 8` of byte `(y*w+x) / 8` — is 1 iff the sample
strictly exceeds `threshold.look_up(x, y)`. -/
theorem claim1_dither_and_pack (w h : Nat) (data_8bpp : Nat → Nat) (tm : ThresholdMatrix)
    (hdiv : 8 ∣ w * h) (hsample : ∀ i, data_8bpp i ≤ 255) :
    (dither_and_pack w h data_8bpp tm).length = w * h / 8 ∧
    ∀ x y, x < w → y < h →
      ((dither_and_pack w h data_8bpp tm).getD ((y * w + x) / 8) 0).testBit ((y * w + x) % 8)
        = decide (data_8bpp (y * w + x) > tm.look_up x y) := by
  constructor
  · unfold dither_and_pack
    rw [ditherFold_length]
    exact List.length_replicate _ _
  · intro x y hx hy
    have hidx : y * w + x < w * h := by
      have h1 : y * w + x < (y + 1) * w := by rw [Nat.succ_mul]; omega
      have h2 : (y + 1) * w ≤ h * w := Nat.mul_le_mul_right w hy
      calc y * w + x < (y + 1) * w := h1
        _ ≤ h * w := h2
        _ = w * h := Nat.mul_comm h w
    have hdp : dither_and_pack w h data_8bpp tm = ditherState w h data_8bpp tm (w * h) := rfl
    have hk : (y * w + x) / 8 < w * h / 8 := Nat.div_lt_div_of_lt_of_dvd hdiv hidx
    have hb : (y * w + x) % 8 < 8 := Nat.mod_lt _ (by norm_num)
    rw [hdp, ditherState_testBit w h data_8bpp tm hdiv (w * h) le_rfl _ hk _ hb]
    have hdm : 8 * ((y * w + x) / 8) + (y * w + x) % 8 = y * w + x := Nat.div_add_mod _ 8
    rw [hdm]
    have hmod : (y * w + x) % w = x := by
      rw [Nat.add_comm, Nat.add_mul_mod_self_right, Nat.mod_eq_of_lt hx]
    have hdivw : (y * w + x) / w = y := by
      rw [Nat.add_comm, Nat.add_mul_div_right x y (by omega : 0 < w), Nat.div_eq_of_lt hx]
      omega
    rw [hmod, hdivw]
    simp [hidx]

/-- C1 witness: a concrete 4×2 frame of constant sample 200 against a
constant-128 threshold matrix packs into one byte, and the bit of pixel
`(3, 0)` is set since `200 > 128`. -/
theorem claim1_witness :
    (dither_and_pack 4 2 (fun _ => 200) ⟨1, 1, [128]⟩).length = 1 ∧
    ((dither_and_pack 4 2 (fun _ => 200) ⟨1, 1, [128]⟩).getD 0 0).testBit 3 = true := by
  have hs : ∀ i : Nat, (fun _ => (200 : Nat)) i ≤ 255 := fun _ => by norm_num
  refine ⟨(claim1_dither_and_pack 4 2 _ _ (by norm_num) hs).1, ?_⟩
  rw [(claim1_dither_and_pack 4 2 _ _ (by norm_num) hs).2 3 0 (by norm_num) (by norm_num)]
  decide

/-! ## Claim C2 -/

/-- The producer's subsampling loop keeps exactly the elements whose running
counter is a multiple of `take`, in order. -/
theorem producerLoop_eq_filter {α : Type} (take : Nat) (c : Nat) (l : List α) :
    producerLoop take c l
      = ((List.enumFrom c l).filter (fun p => p.1 % take = 0)).map Prod.snd := by
  induction l generalizing c with
  | nil => rfl
  | cons f rest ih =>
    show (if c % take = 0 then f :: producerLoop take (c + 1) rest
          else producerLoop take (c + 1) rest) = _
    rw [List.enumFrom_cons, List.filter_cons]
    by_cases hc : c % take = 0
    · simp [hc, ih]
    · simp [hc, ih]

/-- The consumer assigns mode `GL16` to a popped frame exactly when its
running display counter is a multiple of `ghost`, and `A2` otherwise. -/
theorem consumerLoop_eq_map {α : Type} (ghost : Nat) (c : Nat) (l : List α) :
    consumerLoop ghost c l
      = (List.enumFrom c l).map
          (fun p => (p.2, if p.1 % ghost = 0 then Mode.GL16 else Mode.A2)) := by
  induction l generalizing c with
  | nil => rfl
  | cons f rest ih =>
    show (f, if c % ghost = 0 then Mode.GL16 else Mode.A2) :: consumerLoop ghost (c + 1) rest = _
    rw [List.enumFrom_cons, List.map_cons, ih]

/-- C2: with subsampling factor `take ≥ 1` and ghost interval `ghost ≥ 1`, the
pipeline displays exactly the source frames whose (0-based) source index is a
multiple of `take`, in source order, and the `i`-th displayed frame (0-based)
is shown with the high-quality mode `GL16` iff `i % ghost = 0`, else with the
fast mode `A2`. -/
theorem claim2_pipeline_schedule {α : Type} (take ghost : Nat)
    (ht : 1 ≤ take) (hg : 1 ≤ ghost) (frames : List α) :
    pipelineDisplayed take ghost frames
      = (((frames.enum.filter (fun p => p.1 % take = 0)).map Prod.snd).enum.map
          (fun p => (p.2, if p.1 % ghost = 0 then Mode.GL16 else Mode.A2))) := by
  show consumerModes ghost (producerKept take frames) = _
  unfold consumerModes producerKept
  rw [consumerLoop_eq_map, producerLoop_eq_filter]
  rfl

/-- C2 witness: six source frames, `take = 2`, `ghost = 2` — displayed frames
are the sources at indices 0, 2, 4 in order, with modes GL16, A2, GL16. -/
theorem claim2_witness :
    pipelineDisplayed 2 2 [10, 20, 30, 40, 50, 60]
      = [(10, Mode.GL16), (30, Mode.A2), (50, Mode.GL16)] := by
  rw [claim2_pipeline_schedule 2 2 (by norm_num) (by norm_num) [10, 20, 30, 40, 50, 60]]
  decide

/-! ## Claim C7 -/

/-- Number of chunks produced by the 8-pixel chunking. -/
theorem chunks8_length (l : List Nat) : (chunks8 l).length = (l.length + 7) / 8 := by
  have H : ∀ n (l : List Nat), l.length ≤ n → (chunks8 l).length = (l.length + 7) / 8 := by
    intro n
    induction n with
    | zero =>
      intro l hl
      have hnil : l = [] := List.eq_nil_of_length_eq_zero (by omega)
      subst hnil
      rw [chunks8]
      simp
    | succ n ih =>
      intro l hl
      by_cases h : l = []
      · subst h
        rw [chunks8]
        simp
      · rw [chunks8, dif_neg h]
        have hpos : 0 < l.length := List.length_pos.mpr h
        have hdrop : (l.drop 8).length = l.length - 8 := List.length_drop 8 l
        have hrec := ih (l.drop 8) (by omega)
        rw [List.length_cons, hrec, hdrop]
        omega
  exact H l.length l le_rfl

/-- C7 counterexample: a frame set whose first frame has the right length but
whose seven later frames are a single byte each passes the playback check of
the display tool unchanged (`some true`), and the subsequent run (take = 1)
still displays a full batch of 8 frames — the wrong-length frames included —
so the length invariant is neither enforced at production (`RawFrames::new`
checks nothing) nor re-checked for every frame before playback. -/
theorem claim7_counterexample :
    playback_check ⟨8, 8, List.replicate 8 (0 : Nat) :: List.replicate 7 [0]⟩ 8 8
      = some true ∧
    ((List.replicate 8 (0 : Nat) :: List.replicate 7 [(0 : Nat)]).getD 1 []).length
      ≠ 8 * 8 / 8 ∧
    0 < (displayRun 1 0 8 32 0
          (List.replicate 8 (0 : Nat) :: List.replicate 7 [0])).countP isDisplayImage := by
  refine ⟨by decide, by decide, by decide⟩

/-- C7 (amended): the conversion tool produces frames of `⌈pixels/8⌉` bytes —
equal to `width*height/8` whenever `width*height` is divisible by 8 — but the
invariant is not enforced by the frame-set constructor, and before playback
the display tool re-checks only the set dimensions and the length of the
FIRST frame; later frames are not re-checked, and a set whose first frame has
the right length plays back even if later frames have wrong lengths. -/
theorem claim7_frame_length_amended :
    (∀ pixels : List Nat, (convert_frame pixels).length = (pixels.length + 7) / 8) ∧
    (∀ w h : Nat, ∀ pixels : List Nat, 8 ∣ w * h → pixels.length = w * h →
       (convert_frame pixels).length = w * h / 8) ∧
    (∀ rf : RawFrames, ∀ optW optH : Nat, ∀ f0 : List Nat, ∀ rest : List (List Nat),
       rf.frames = f0 :: rest →
       (playback_check rf optW optH = some true ↔
         (rf.width = optW ∧ rf.height = optH ∧ f0.length = optW * optH / 8))) := by
  refine ⟨?_, ?_, ?_⟩
  · intro pixels
    unfold convert_frame
    rw [List.length_map, chunks8_length]
  · intro w h pixels hdiv hlen
    unfold convert_frame
    rw [List.length_map, chunks8_length, hlen]
    omega
  · rintro ⟨rw1, rh1, rframes⟩ optW optH f0 rest hf
    dsimp only at hf
    subst hf
    simp [playback_check, and_assoc]

/-- C7 witness: concrete instances of the amended production-length and
first-frame-only-check properties. -/
theorem claim7_witness :
    (convert_frame (List.replicate 16 0)).length = 4 * 4 / 8 ∧
    (playback_check ⟨4, 2, [[0]]⟩ 4 2 = some true ↔
      ((⟨4, 2, [[0]]⟩ : RawFrames).width = 4 ∧ (⟨4, 2, [[0]]⟩ : RawFrames).height = 2 ∧
        ([0] : List Nat).length = 4 * 2 / 8)) :=
  ⟨claim7_frame_length_amended.2.1 4 4 (List.replicate 16 0) (by norm_num) (by simp),
   claim7_frame_length_amended.2.2 ⟨4, 2, [[0]]⟩ 4 2 [0] [] rfl⟩

/-! ## Claim C10 -/

/-- Every complete inner batch loop emits exactly its iteration count of
`display_image` events. -/
theorem batchLoop_count_display (base size ghost : Nat) :
    ∀ n index gc, ((batchLoop base size ghost n index gc).1.countP isDisplayImage) = n := by
  intro n
  induction n with
  | zero => intro index gc; rfl
  | succ n ih =>
    intro index gc
    show (DispEvent.displayImage _ _ ::
      (batchLoop base size ghost n (index + 1) (ghostStep ghost gc)).1).countP isDisplayImage
        = n + 1
    rw [List.countP_cons]
    simp [isDisplayImage, ih]

/-- The inner batch loop emits no `set_memory` events. -/
theorem batchLoop_count_setMemory (base size ghost : Nat) :
    ∀ n index gc, ((batchLoop base size ghost n index gc).1.countP isSetMemory) = 0 := by
  intro n
  induction n with
  | zero => intro index gc; rfl
  | succ n ih =>
    intro index gc
    show (DispEvent.displayImage _ _ ::
      (batchLoop base size ghost n (index + 1) (ghostStep ghost gc)).1).countP isSetMemory
        = 0
    rw [List.countP_cons]
    simp [isSetMemory, ih]

/-- Unfolding: a frame whose index is skipped emits nothing. -/
theorem displayLoop_cons_skip (take base size ghost : Nat) (frame : List Nat)
    (rest : List (List Nat)) (fc gc bi : Nat) (h : fc % take ≠ 0) :
    displayLoop take base size ghost (frame :: rest) fc gc bi
      = displayLoop take base size ghost rest (fc + 1) gc bi := by
  simp [displayLoop, h]

/-- Unfolding: a kept frame written into a slot below 7 only fills the buffer. -/
theorem displayLoop_cons_fill (take base size ghost : Nat) (frame : List Nat)
    (rest : List (List Nat)) (fc gc bi : Nat) (h : fc % take = 0) (h7 : bi < 7) :
    displayLoop take base size ghost (frame :: rest) fc gc bi
      = DispEvent.setMemory (base + size * bi) frame ::
          displayLoop take base size ghost rest (fc + 1) gc (bi + 1) := by
  simp [displayLoop, h, h7]

/-- Unfolding: a kept frame written into slot 7 completes the batch, which is
then displayed in full. -/
theorem displayLoop_cons_flush (take base size ghost : Nat) (frame : List Nat)
    (rest : List (List Nat)) (fc gc bi : Nat) (h : fc % take = 0) (h7 : ¬ bi < 7) :
    displayLoop take base size ghost (frame :: rest) fc gc bi
      = DispEvent.setMemory (base + size * bi) frame ::
          ((batchEvents base size ghost gc).1 ++
            displayLoop take base size ghost rest (fc + 1) (batchEvents base size ghost gc).2 0) := by
  simp [displayLoop, h, h7]

/-- Invariant of the display tool's main loop: every kept frame produces one
image-buffer write, and `display_image` events come in exactly the completed
batches of 8. -/
theorem displayLoop_counts (take base size ghost : Nat) :
    ∀ (l : List (List Nat)) (fc gc bi : Nat), bi < 8 →
      (displayLoop take base size ghost l fc gc bi).countP isSetMemory
          = (producerLoop take fc l).length ∧
      (displayLoop take base size ghost l fc gc bi).countP isDisplayImage
          = 8 * ((bi + (producerLoop take fc l).length) / 8) := by
  intro l
  induction l with
  | nil =>
    intro fc gc bi hbi
    constructor
    · simp [displayLoop, producerLoop]
    · simp [displayLoop, producerLoop]
      omega
  | cons frame rest ih =>
    intro fc gc bi hbi
    by_cases hfc : fc % take = 0
    · have hlen : (producerLoop take fc (frame :: rest)).length
          = (producerLoop take (fc + 1) rest).length + 1 := by
        simp [producerLoop, hfc]
      by_cases hbi7 : bi < 7
      · rw [displayLoop_cons_fill take base size ghost frame rest fc gc bi hfc hbi7, hlen]
        have h1 := ih (fc + 1) gc (bi + 1) (by omega)
        constructor
        · rw [List.countP_cons, h1.1]
          simp [isSetMemory]
        · rw [List.countP_cons, h1.2]
          simp [isDisplayImage]
          omega
      · rw [displayLoop_cons_flush take base size ghost frame rest fc gc bi hfc hbi7, hlen]
        have h1 := ih (fc + 1) (batchEvents base size ghost gc).2 0 (by omega)
        constructor
        · rw [List.countP_cons, List.countP_append, h1.1]
          simp only [batchEvents]
          rw [batchLoop_count_setMemory base size ghost 8 0 gc]
          simp [isSetMemory]
        · rw [List.countP_cons, List.countP_append, h1.2]
          simp only [batchEvents]
          rw [batchLoop_count_display base size ghost 8 0 gc]
          simp [isDisplayImage]
          omega
    · rw [displayLoop_cons_skip take base size ghost frame rest fc gc bi hfc]
      have hlen : (producerLoop take fc (frame :: rest)).length
          = (producerLoop take (fc + 1) rest).length := by
        simp [producerLoop, hfc]
      rw [hlen]
      exact ih (fc + 1) gc bi hbi

/-- C10: the batch-buffered display tool displays frames only in complete
batches of 8: every kept (non-skipped) frame is written to device memory, the
number of `display_image` events is `8 * (kept / 8)` — so when the kept count
is not a multiple of 8, the final `kept mod 8` written frames are never
displayed — and the run ends by clearing the screen. -/
theorem claim10_batch_display (take base size ghost reg : Nat) (ht : 1 ≤ take)
    (frames : List (List Nat)) :
    (displayRun take base size ghost reg frames).countP isSetMemory
        = (producerKept take frames).length ∧
    (displayRun take base size ghost reg frames).countP isDisplayImage
        = 8 * ((producerKept take frames).length / 8) ∧
    (displayRun take base size ghost reg frames).getLast? = some DispEvent.clearDisplay := by
  have h := displayLoop_counts take base size ghost frames 0 0 0 (by omega)
  unfold displayRun producerKept
  refine ⟨?_, ?_, ?_⟩
  · rw [List.countP_append, h.1]
    simp [isSetMemory]
  · rw [List.countP_append, h.2]
    simp only [isDisplayImage, List.countP_cons, List.countP_nil]
    norm_num
  · rw [show displayLoop take base size ghost frames 0 0 0 ++
        [DispEvent.writeReg 0x18001138 reg, DispEvent.clearDisplay]
        = (displayLoop take base size ghost frames 0 0 0 ++
            [DispEvent.writeReg 0x18001138 reg]) ++ [DispEvent.clearDisplay] by simp]
    exact List.getLast?_concat _

/-- C10 witness: nine kept frames (take = 1) — all nine are written, only the
first complete batch of 8 is displayed, and the run ends with a clear. -/
theorem claim10_witness :
    (displayRun 1 0 1 32 0 (List.replicate 9 [0])).countP isSetMemory = 9 ∧
    (displayRun 1 0 1 32 0 (List.replicate 9 [0])).countP isDisplayImage = 8 ∧
    (displayRun 1 0 1 32 0 (List.replicate 9 [0])).getLast? = some DispEvent.clearDisplay := by
  have h := claim10_batch_display 1 0 1 32 0 (by norm_num) (List.replicate 9 [0])
  refine ⟨?_, ?_, h.2.2⟩
  · rw [h.1]
    decide
  · rw [h.2.1]
    decide

/-! ## Additional concrete witnesses -/

/-- C3 witness: two stalls then success — two halt-clears, three reads, no
Command Wrapper write. -/
theorem claim3_witness :
    send_status_block_wrapper
        (List.replicate 2 StatusOutcome.pipe ++ StatusOutcome.ok ⟨0x53425355, 1, 0, 0⟩ :: [])
      = (some (Except.ok ⟨0x53425355, 1, 0, 0⟩),
         (List.replicate 2 [UsbAction.readBulkIn 13, UsbAction.clearHalt]).flatten
           ++ [UsbAction.readBulkIn 13]) :=
  (claim3_stall_recovery 2 ⟨0x53425355, 1, 0, 0⟩ 0 [] []).1

/-- C5 witness: the PMIC command for a concrete in-range input is a full
16-byte command with the commit flag set. -/
theorem claim5_witness :
    (set_vcom_command (-3)).length = 16 ∧ (set_vcom_command (-3)).getD 9 0 = 1 :=
  claim5_vcom_amended.2.1 (-3)

/-- C8 witness: the amended register facts at a concrete initial register
file (constant 5) and the default width 1856. -/
theorem claim8_witness :
    display_tool_final_regs (fun _ => 5) 1856 0x18001138
      = (fun _ : Nat => (5 : Nat)) 0x18001138 ∧
    display_tool_final_regs (fun _ => 5) 1856 0x18001250 = 0xf0 ∧
    display_tool_final_regs (fun _ => 5) 1856 0x1800124c = 1856 / 8 / 4 ∧
    streaming_tool_final_regs (fun _ => 5) 1856 0x18001138
      = ((fun _ : Nat => (5 : Nat)) 0x18001138 ||| 1 <<< 18 ||| 1 <<< 17) ∧
    streaming_tool_final_regs (fun _ => 5) 1856 0x18001250 = 0xf0 ∧
    streaming_tool_final_regs (fun _ => 5) 1856 0x1800124c = 1856 / 8 / 4 :=
  claim8_regs_amended (fun _ => 5) 1856
